import Mathlib

set_option autoImplicit false

/-!
Verification development for the conversation-orchestration core of the
Enterprise-AI-Assistant repository: the per-turn user-identity context,
the memory-extraction node, the streaming chat loop, thread-history
reconstruction, the tool layer (calculator, document retrieval) and the
per-user document index.  Python code is shallowly embedded: external
effects (the checkpoint store, the LLM backend, the FAISS library calls)
are passed in as explicit outcomes, and exceptions are `Except` /
`Option` results.
-/

namespace EAsst

/-! ### app/context/user_context.py -/

/-- Model of the `contextvars.ContextVar` `_user_id_context` holding the
per-turn user id: the ambient binding is explicit state, `none` being the
context variable's declared default. -/
abbrev UserCtx := Option Nat

/-- Embeds `set_current_user_id` from `app/context/user_context.py`: writes
the given user id into the context variable. -/
def set_current_user_id (user_id : Nat) (_ctx : UserCtx) : UserCtx :=
  some user_id

/-- Embeds `get_current_user_id` from `app/context/user_context.py`: reads
the context variable. -/
def get_current_user_id (ctx : UserCtx) : Option Nat := ctx

/-! ### Checkpointed LangChain messages and
`ChatbotAgent.get_thread_history` (app/agents/chatbot.py) -/

/-- The `msg.type` tag of a LangChain message as tested by
`get_thread_history` (`'human'`, `'ai'`, `'tool'`). -/
inductive MsgType
  | human
  | ai
  | tool
deriving DecidableEq, Repr

/-- A checkpointed message as far as `get_thread_history` inspects it:
its `type` tag and its `content`. -/
structure LCMessage where
  type : MsgType
  content : String
deriving DecidableEq, Repr

/-- One entry of the history list returned to the frontend:
`{'role': ..., 'content': ...}`. -/
structure HistoryEntry where
  role : String
  content : String
deriving DecidableEq, Repr

/-- The formatting loop of `ChatbotAgent.get_thread_history`: `'human'`
messages become `user` entries, `'ai'` messages become `assistant`
entries (their content is not inspected), and every other message type
is dropped. -/
def formatHistory (messages : List LCMessage) : List HistoryEntry :=
  messages.filterMap fun m =>
    match m.type with
    | .human => some ⟨"user", m.content⟩
    | .ai => some ⟨"assistant", m.content⟩
    | .tool => none

/-- Embeds `ChatbotAgent.get_thread_history`.  `st` is the outcome of
reading the checkpointed state (`self.graph.get_state(config)` and the
`messages` access): an exception, or the stored message list.  The code
returns `[]` when the read raises, and `[]` when the state or its
message list is falsy; otherwise it formats the messages. -/
def get_thread_history (st : Except String (List LCMessage)) : List HistoryEntry :=
  match st with
  | .error _ => []
  | .ok msgs => if msgs.isEmpty then [] else formatHistory msgs

/-! ### Turn traces appended to the checkpoint

`app/graph/state.py` (the `ChatState` with its message reducer) is not
present under `src/`, so the shape of one turn's appended messages is
modelled from the spec and from `app/graph/builder.py`. -/

/-- One round of the tool loop inside a turn: the assistant message
carrying the tool requests (its visible `content`, typically empty) and
the tool messages produced by the requested tools. -/
structure ToolRound where
  assistantContent : String
  toolResults : List String
deriving DecidableEq, Repr

/-- One successful turn: the user message, the tool rounds requested by
response generation (empty list when no tools were requested) and the
final assistant answer. -/
structure Turn where
  userMsg : String
  rounds : List ToolRound
  answer : String
deriving DecidableEq, Repr

/-- Modelled from the spec: `app/graph/state.py` is absent from `src/`,
so the checkpoint is modelled per spec section 3 ("thread message
history is append-only") and the graph edges of `app/graph/builder.py`
(`remember → chat_node`, `chat_node → tools → chat_node`): a turn
appends the human message, then for each tool round the assistant
tool-request message followed by its tool messages, then the final
assistant answer. -/
def turnMessages (t : Turn) : List LCMessage :=
  ⟨.human, t.userMsg⟩ ::
    (t.rounds.flatMap fun r =>
      ⟨.ai, r.assistantContent⟩ :: r.toolResults.map (⟨.tool, ·⟩)) ++
    [⟨.ai, t.answer⟩]

/-- The checkpointed message list after a sequence of successful turns. -/
def threadMessages (turns : List Turn) : List LCMessage :=
  turns.flatMap turnMessages

/-! ### app/agents/memory (models.py, extractor.py) and `remember_node`
(app/agents/nodes.py) -/

/-- Embeds `MemoryItem` from `app/agents/memory/models.py`. -/
structure MemoryItem where
  text : String
  is_new : Bool
deriving DecidableEq, Repr

/-- Embeds `MemoryDecision` from `app/agents/memory/models.py`. -/
structure MemoryDecision where
  should_write : Bool
  memories : List MemoryItem
deriving DecidableEq, Repr

/-- Embeds `MemoryExtractor.extract` (app/agents/memory/extractor.py):
the structured-output chain invocation is an external LLM call whose
outcome is the argument; any exception from it is caught and yields
`should_write = False` with an empty memory list. -/
def MemoryExtractor.extract (backend : Except String MemoryDecision) : MemoryDecision :=
  match backend with
  | .ok d => d
  | .error _ => ⟨false, []⟩

/-- Embeds `remember_node` from `app/agents/nodes.py`.

`search` is the outcome of `store.search(ns)` (the stored memory texts,
or the exception it raised); `backend` is the outcome of the
structured-output LLM call as a function of the existing-memories text
interpolated into the prompt; `store` is the user's persisted memory
list, to which `store.put` appends.

The first `try` block computes `existing`, falling back to `"(empty)"`
when the search raised — but then the local `items` stays unbound.  The
second `try` block runs extraction and stores each `is_new` fact,
swallowing its own exceptions.  The trailing logging block evaluates
`if items:` outside any `try`, which raises `NameError` exactly when the
search had failed.  The returned pair is the store contents after the
node (the puts having already happened) and the exception the node
raises, if any. -/
def remember_node (search : Except String (List String))
    (backend : String → Except String MemoryDecision)
    (store : List String) : List String × Option String :=
  let existing : String :=
    match search with
    | .ok items => if items.isEmpty then "(empty)" else String.intercalate "\n" items
    | .error _ => "(empty)"
  let decision := MemoryExtractor.extract (backend existing)
  let store1 :=
    if decision.should_write && !decision.memories.isEmpty then
      store ++ (decision.memories.filter (fun m => m.is_new)).map (fun m => m.text)
    else store
  match search with
  | .ok _ => (store1, none)
  | .error _ => (store1, some "NameError: name 'items' is not defined")

/-! ### The streaming loop `ChatbotAgent.chat_stream`
(app/agents/chatbot.py) -/

/-- The `langgraph_node` tag on a streamed graph event. -/
inductive GNode
  | remember
  | chat_node
  | tools
deriving DecidableEq, Repr

/-- One `(msg, metadata)` pair yielded by `self.graph.stream(...)`:
the originating node, the message's `name` attribute when present
(`hasattr(msg, "name")`) and its `content` (`""` standing for a falsy
content). -/
structure GEvent where
  node : GNode
  toolName : Option String
  content : String
deriving DecidableEq, Repr

/-- One execution of the underlying graph stream as observed by the
loop: the events it yields, and the exception that interrupts it, if
any (`fault = some e` means the iteration raised `e` after yielding
`events`). -/
structure GraphRun where
  events : List GEvent
  fault : Option String
deriving DecidableEq, Repr

/-- The chunks yielded to the consumer by `chat_stream`. -/
inductive Chunk
  | status (step st message : String)
  | content (data : String)
  | toolStart (tool st : String)
  | toolComplete (tool message : String)
  | error (message : String)
deriving DecidableEq, Repr

/-- The fixed first chunk of every turn. -/
def memoryRetrievingChunk : Chunk :=
  .status "memory" "retrieving" "🧠 Retrieving your memory..."

/-- The once-per-turn "generation started" status chunk. -/
def generationStartedChunk : Chunk :=
  .status "generation" "started" "✍️ Generating response..."

/-- Whether a chunk is a "generation started" status chunk. -/
def Chunk.isGenStart : Chunk → Bool
  | .status "generation" "started" _ => true
  | _ => false

/-- Whether a chunk is a content chunk. -/
def Chunk.isContent : Chunk → Bool
  | .content _ => true
  | _ => false

/-- Whether a chunk is an error chunk. -/
def Chunk.isError : Chunk → Bool
  | .error _ => true
  | _ => false

/-- The loop body of `chat_stream` for one streamed event, given the
current state of the `self._generation_started` flag: `remember` events
are filtered; a `chat_node` event with truthy content first emits the
generation-started status if the flag is unset (setting it), then the
content chunk; a `tools` event emits `tool_start` when the message has a
`name` and `tool_complete` when it has truthy content. -/
def stepChunks (flag : Bool) (ev : GEvent) : Bool × List Chunk :=
  match ev.node with
  | .remember => (flag, [])
  | .chat_node =>
      if ev.content ≠ "" then
        if flag then (flag, [Chunk.content ev.content])
        else (true, [generationStartedChunk, Chunk.content ev.content])
      else (flag, [])
  | .tools =>
      let starts :=
        match ev.toolName with
        | some n => [Chunk.toolStart n ("Using " ++ n ++ "...")]
        | none => []
      let completes :=
        if ev.content ≠ "" then
          [Chunk.toolComplete (ev.toolName.getD "unknown") "✅ Tool execution complete"]
        else []
      (flag, starts ++ completes)

/-- The streamed-event loop of `chat_stream`: folds `stepChunks` over
the events, returning the final flag state and all yielded chunks. -/
def runChunks : Bool → List GEvent → Bool × List Chunk
  | flag, [] => (flag, [])
  | flag, e :: es =>
      let s := stepChunks flag e
      let r := runChunks s.1 es
      (r.1, s.2 ++ r.2)

/-- The outcome of one `chat_stream` call: the chunks yielded to the
consumer, the user-id context after the call, and the state of the
instance attribute `self._generation_started` after the call. -/
structure StreamResult where
  chunks : List Chunk
  finalCtx : UserCtx
  flagAfter : Bool
deriving DecidableEq, Repr

/-- Embeds `ChatbotAgent.chat_stream`.  `flag` is the state of
`self._generation_started` on entry (it is an attribute of the singleton
agent, so it survives across calls); `ctx` is the ambient user-id
context on entry; `run` is the underlying graph stream's behaviour.

The code sets the user context, yields the memory-retrieving status
chunk, then iterates the graph stream inside a `try`: on normal
completion it deletes the flag attribute; on an exception it yields a
single error chunk and returns (leaving the flag as the loop left it).
No path resets the user context. -/
def chat_stream (user_id : Nat) (ctx : UserCtx) (flag : Bool)
    (run : GraphRun) : StreamResult :=
  let ctx1 := set_current_user_id user_id ctx
  let r := runChunks flag run.events
  match run.fault with
  | none => ⟨memoryRetrievingChunk :: r.2, ctx1, false⟩
  | some e => ⟨memoryRetrievingChunk :: r.2 ++ [Chunk.error e], ctx1, r.1⟩

/-! ### Python string helpers shared by the tool layer
(str.strip, slicing, str.replace) -/

/-- Whether a character is whitespace for `str.strip`. -/
def pyIsSpace (c : Char) : Bool :=
  c == ' ' || c == '\t' || c == '\n' || c == '\r'

/-- Model of Python `str.strip()`: removes leading and trailing
whitespace. -/
def pyStrip (s : String) : String :=
  String.mk (((s.toList.dropWhile pyIsSpace).reverse.dropWhile pyIsSpace).reverse)

/-- Worker for `str.replace` on character lists: replaces every
non-overlapping occurrence of `pat` left to right.  `fuel` dominates the
number of steps; each step consumes at least one character. -/
def pyReplaceAux : Nat → List Char → List Char → List Char → List Char
  | 0, _, _, s => s
  | _ + 1, _, _, [] => []
  | fuel + 1, pat, rep, c :: rest =>
      if pat ≠ [] && pat.isPrefixOf (c :: rest) then
        rep ++ pyReplaceAux fuel pat rep ((c :: rest).drop pat.length)
      else
        c :: pyReplaceAux fuel pat rep rest

/-- Model of Python `str.replace(pat, rep)`. -/
def pyReplace (s pat rep : String) : String :=
  String.mk (pyReplaceAux (s.toList.length + 1) pat.toList rep.toList s.toList)

/-! ### The per-user document index
(app/rag/pdf_processor.py) and the retrieval tool
(`search_my_documents` in app/agents/tools.py) -/

/-- One indexed chunk as the retrieval path reads it: its text and the
`source` / `page` metadata attached at ingestion. -/
structure DocChunk where
  content : String
  source : String
  page : Nat
deriving DecidableEq, Repr

/-- A scored retrieval hit.  Similarity scores are modelled as integers
(any linearly ordered score domain; the code only orders and displays
them). -/
abbrev ScoredChunk := DocChunk × Int

/-- Ranking order used by the index model: higher similarity first. -/
def scoreGE (a b : ScoredChunk) : Prop := b.2 ≤ a.2

instance : DecidableRel scoreGE := fun a b => inferInstanceAs (Decidable (b.2 ≤ a.2))

instance : IsTotal ScoredChunk scoreGE := ⟨fun a b => le_total b.2 a.2⟩

instance : IsTrans ScoredChunk scoreGE := ⟨fun _ _ _ h1 h2 => le_trans h2 h1⟩

/-- Modelled from the spec: `vectorstore.similarity_search_with_score`
is the external FAISS library; per spec section 4.5 it "returns the k
nearest chunks with similarity scores", best first.  Modelled as
sorting the user's index entries by descending similarity and taking
`k`. -/
def similarity_search_with_score (entries : List ScoredChunk) (k : Nat) : List ScoredChunk :=
  (List.insertionSort scoreGE entries).take k

/-- Embeds `PDFProcessor.query_documents`: an absent vector store yields
`[]`; otherwise the FAISS search results are passed through (the code
re-wraps them as dicts keeping content, metadata and score). -/
def query_documents (vs : Option (List ScoredChunk)) (k : Nat) : List ScoredChunk :=
  match vs with
  | none => []
  | some entries => similarity_search_with_score entries k

/-- The guidance text `search_my_documents` returns when the user has no
vector store. -/
def noDocumentsMessage : String :=
  "I don't see any uploaded documents in your account yet.\n\n" ++
  "To use this feature:\n" ++
  "1. Upload a PDF document using the upload button\n" ++
  "2. Wait for processing to complete\n" ++
  "3. Ask me questions about your document"

/-- The text returned when the store exists but the query matched
nothing. -/
def noResultsMessage : String :=
  "I couldn't find any relevant information in your documents for this query.\n" ++
  "Try rephrasing your question or check if the information is in your uploaded files."

/-- The per-hit truncation in `search_my_documents`: content longer than
400 characters becomes its first 397 characters plus `"..."`. -/
def pyTruncate (content : String) : String :=
  if content.length > 400 then String.mk (content.toList.take 397) ++ "..." else content

/-- One formatted section of the tool's response (`i` is the 1-based
index from `enumerate(results, 1)`). -/
def formatSection (i : Nat) (r : ScoredChunk) : String :=
  "\n**📄 Source " ++ toString i ++ ": " ++ r.1.source ++ ", Page " ++
    toString r.1.page ++ "**\n" ++ pyTruncate (pyStrip r.1.content) ++ "\n"

/-- The `response_lines` list built by `search_my_documents`: a header
with the hit count, then one section per hit in result order. -/
def formatResults (results : List ScoredChunk) : List String :=
  ("I found " ++ toString results.length ++ " relevant sections in your documents:\n")
    :: results.enum.map (fun p => formatSection (p.1 + 1) p.2)

/-- Embeds the `search_my_documents` tool (app/agents/tools.py).  `vs`
is the caller's vector store: `none` when `get_vectorstore(user_id)`
found no index.  An absent index returns the upload-guidance text; an
empty result list returns the no-results text; otherwise the formatted
sections are joined with newlines. -/
def search_my_documents (vs : Option (List ScoredChunk)) : String :=
  match vs with
  | none => noDocumentsMessage
  | some entries =>
      let results := query_documents (some entries) 4
      if results.isEmpty then noResultsMessage
      else String.intercalate "\n" (formatResults results)

/-- Embeds the index-merging step of `PDFProcessor.process_pdf` (steps
5–6): when the user's store exists it is loaded and
`vectorstore.add_documents(chunks)` appends the new chunks (the external
FAISS call appends entries, performing no deduplication); otherwise a
fresh store is built from the chunks. -/
def process_pdf (existingIndex : Option (List DocChunk)) (chunks : List DocChunk) :
    List DocChunk :=
  match existingIndex with
  | some ix => ix ++ chunks
  | none => chunks

/-! ### The calculator tool (app/agents/tools.py)

The tool strips the input, rewrites `sqrt`/`sin`/`cos`/`tan`/`log`/
`ln`/`pi`/`e` via `str.replace`, and passes the result to Python `eval`
with globals `{"math": math, "abs": abs, "round": round, "min": min,
"max": max, "__builtins__": {}}`.  Python `eval` itself is external to
the repository; it is modelled here on a fragment of Python expression
syntax and semantics (numbers, strings, names, attributes,
single-argument calls, `+ - * / **`, unary minus).  Inputs outside the
fragment — or touching values the model cannot represent exactly, such
as irrational function results or IEEE-754 rounding — evaluate to
`none` ("not modelled"), never to a wrong answer.  Python floats whose
arithmetic is exact are modelled as integer fractions. -/

/-- The replacement chain of `calculator` applied to the stripped
input. -/
def calcPreprocess (expression : String) : String :=
  let s := pyStrip expression
  let s := pyReplace s "sqrt" "math.sqrt"
  let s := pyReplace s "sin" "math.sin"
  let s := pyReplace s "cos" "math.cos"
  let s := pyReplace s "tan" "math.tan"
  let s := pyReplace s "log" "math.log10"
  let s := pyReplace s "ln" "math.log"
  let s := pyReplace s "pi" "math.pi"
  let s := pyReplace s "e" "math.e"
  s

/-- The single-quote character, delimiting Python string literals. -/
def quoteCh : Char := Char.ofNat 39

/-- The backslash character (escape sequences are outside the modelled
fragment). -/
def backslashCh : Char := Char.ofNat 92

/-- Tokens of the modelled Python expression fragment. -/
inductive Tok
  | int (n : Nat)
  | ident (s : String)
  | strlit (s : String)
  | lparen
  | rparen
  | plus
  | minus
  | star
  | slash
  | dstar
  | dot
deriving DecidableEq, Repr

/-- Identifier characters. -/
def isIdentCh (c : Char) : Bool := c.isAlpha || c == '_' || c.isDigit

/-- Identifier start characters. -/
def isIdentStart (c : Char) : Bool := c.isAlpha || c == '_'

/-- Digit-list to number. -/
def digitsToNat (ds : List Char) : Nat :=
  ds.foldl (fun n c => 10 * n + (c.toNat - '0'.toNat)) 0

/-- Tokenizer for the modelled fragment; `none` when the input uses
anything outside it.  Each recursive call consumes at least one
character, so fuel `length + 1` suffices. -/
def tokenizeAux : Nat → List Char → Option (List Tok)
  | 0, _ => none
  | _ + 1, [] => some []
  | fuel + 1, c :: cs =>
      if c == ' ' || c == '\t' then tokenizeAux fuel cs
      else if c.isDigit then
        let ds := (c :: cs).takeWhile Char.isDigit
        match tokenizeAux fuel ((c :: cs).dropWhile Char.isDigit) with
        | some ts => some (Tok.int (digitsToNat ds) :: ts)
        | none => none
      else if isIdentStart c then
        let ds := (c :: cs).takeWhile isIdentCh
        match tokenizeAux fuel ((c :: cs).dropWhile isIdentCh) with
        | some ts => some (Tok.ident (String.mk ds) :: ts)
        | none => none
      else if c == quoteCh then
        let body := cs.takeWhile (fun d => d ≠ quoteCh)
        if body.any (fun d => d == backslashCh) then none
        else
          match cs.dropWhile (fun d => d ≠ quoteCh) with
          | [] => none
          | _ :: rest =>
              match tokenizeAux fuel rest with
              | some ts => some (Tok.strlit (String.mk body) :: ts)
              | none => none
      else if c == '*' then
        match cs with
        | '*' :: rest =>
            match tokenizeAux fuel rest with
            | some ts => some (Tok.dstar :: ts)
            | none => none
        | _ =>
            match tokenizeAux fuel cs with
            | some ts => some (Tok.star :: ts)
            | none => none
      else
        let tk : Option Tok :=
          if c == '(' then some .lparen
          else if c == ')' then some .rparen
          else if c == '+' then some .plus
          else if c == '-' then some .minus
          else if c == '/' then some .slash
          else if c == '.' then some .dot
          else none
        match tk with
        | none => none
        | some t =>
            match tokenizeAux fuel cs with
            | some ts => some (t :: ts)
            | none => none

/-- Tokenize a string. -/
def tokenize (s : String) : Option (List Tok) :=
  tokenizeAux (s.toList.length + 1) s.toList

/-- Binary operators of the fragment. -/
inductive PyBinOp
  | add
  | sub
  | mul
  | div
  | pow
deriving DecidableEq, Repr

/-- Abstract syntax of the modelled Python expression fragment. -/
inductive PyExpr
  | intLit (n : Nat)
  | strLit (s : String)
  | nameRef (s : String)
  | attr (e : PyExpr) (field : String)
  | call (f : PyExpr) (arg : PyExpr)
  | binop (op : PyBinOp) (a b : PyExpr)
  | neg (e : PyExpr)
deriving DecidableEq, Repr

/-- Parsing modes of the recursive-descent parser (Python precedence:
additive < multiplicative < unary < power < trailers < atom).  Modes
with an accumulator implement the left-recursive loops. -/
inductive PMode
  | expr
  | exprRest (acc : PyExpr)
  | term
  | termRest (acc : PyExpr)
  | unary
  | power
  | trailers (acc : PyExpr)
  | atom
deriving Repr

/-- Fuel-driven recursive-descent parser over the token list.  Returns
the parsed expression and remaining tokens, `none` when the tokens do
not fit the fragment's grammar. -/
def parseF : Nat → PMode → List Tok → Option (PyExpr × List Tok)
  | 0, _, _ => none
  | fuel + 1, mode, toks =>
      match mode with
      | .expr =>
          match parseF fuel .term toks with
          | some (a, rest) => parseF fuel (.exprRest a) rest
          | none => none
      | .exprRest acc =>
          match toks with
          | .plus :: rest =>
              match parseF fuel .term rest with
              | some (b, rest2) => parseF fuel (.exprRest (.binop .add acc b)) rest2
              | none => none
          | .minus :: rest =>
              match parseF fuel .term rest with
              | some (b, rest2) => parseF fuel (.exprRest (.binop .sub acc b)) rest2
              | none => none
          | _ => some (acc, toks)
      | .term =>
          match parseF fuel .unary toks with
          | some (a, rest) => parseF fuel (.termRest a) rest
          | none => none
      | .termRest acc =>
          match toks with
          | .star :: rest =>
              match parseF fuel .unary rest with
              | some (b, rest2) => parseF fuel (.termRest (.binop .mul acc b)) rest2
              | none => none
          | .slash :: rest =>
              match parseF fuel .unary rest with
              | some (b, rest2) => parseF fuel (.termRest (.binop .div acc b)) rest2
              | none => none
          | _ => some (acc, toks)
      | .unary =>
          match toks with
          | .minus :: rest =>
              match parseF fuel .unary rest with
              | some (a, rest2) => some (.neg a, rest2)
              | none => none
          | _ => parseF fuel .power toks
      | .power =>
          match parseF fuel .atom toks with
          | some (base0, rest0) =>
              match parseF fuel (.trailers base0) rest0 with
              | some (base, rest) =>
                  match rest with
                  | .dstar :: rest2 =>
                      match parseF fuel .unary rest2 with
                      | some (expo, rest3) => some (.binop .pow base expo, rest3)
                      | none => none
                  | _ => some (base, rest)
              | none => none
          | none => none
      | .trailers acc =>
          match toks with
          | .dot :: .ident f :: rest => parseF fuel (.trailers (.attr acc f)) rest
          | .lparen :: rest =>
              match parseF fuel .expr rest with
              | some (arg, .rparen :: rest2) => parseF fuel (.trailers (.call acc arg)) rest2
              | _ => none
          | _ => some (acc, toks)
      | .atom =>
          match toks with
          | .int n :: rest => some (.intLit n, rest)
          | .strlit s :: rest => some (.strLit s, rest)
          | .ident s :: rest => some (.nameRef s, rest)
          | .lparen :: rest =>
              match parseF fuel .expr rest with
              | some (a, .rparen :: rest2) => some (a, rest2)
              | _ => none
          | _ => none

/-- Parse a whole string of the fragment; trailing tokens are rejected
(conservatively `none`: Python may or may not accept such inputs, so
they are outside the model). -/
def pyParse (s : String) : Option PyExpr :=
  match tokenize s with
  | none => none
  | some toks =>
      match parseF (10 * (toks.length + 1)) .expr toks with
      | some (e, []) => some e
      | _ => none

/-- A Python float whose arithmetic so far has been exact, as the
fraction `num / den` (`den` is kept positive by construction; the
fraction is not reduced). -/
structure PyFloat where
  num : Int
  den : Nat
deriving DecidableEq, Repr

/-- Interpretation of a modelled float as a rational number. -/
def PyFloat.toRat (f : PyFloat) : ℚ := (f.num : ℚ) / (f.den : ℚ)

/-- Python `float.is_integer`. -/
def PyFloat.isInteger (f : PyFloat) : Bool := f.num.emod (f.den : Int) == 0

/-- The `math`-module functions reachable through the calculator's
namespace. -/
inductive MathFn
  | fsqrt
  | fsin
  | fcos
  | ftan
  | flog10
  | flog
  | fabs
  | fround
  | fmin
  | fmax
deriving DecidableEq, Repr

/-- Values of the modelled fragment. -/
inductive PyVal
  | int (n : Int)
  | float (f : PyFloat)
  | str (s : String)
  | builtin (b : MathFn)
  | mathModule
deriving DecidableEq, Repr

/-- Evaluation outcome: `none` = outside the modelled fragment;
`some (.error m)` = Python raises an exception whose `str` is `m`;
`some (.ok v)` = evaluates to `v`. -/
abbrev EvalRes := Option (Except String PyVal)

/-- Name lookup in the `safe_dict` globals of `calculator` (with
`__builtins__` emptied, any other name raises `NameError`). -/
def lookupName (s : String) : EvalRes :=
  if s == "math" then some (.ok .mathModule)
  else if s == "abs" then some (.ok (.builtin .fabs))
  else if s == "round" then some (.ok (.builtin .fround))
  else if s == "min" then some (.ok (.builtin .fmin))
  else if s == "max" then some (.ok (.builtin .fmax))
  else some (.error ("name '" ++ s ++ "' is not defined"))

/-- Attribute access on a value.  Only the used attributes of the
`math` module are modelled; `math.pi` and `math.e` are irrational
(outside the exact-float model); an unknown `math` attribute raises
`AttributeError`; attributes of other values are outside the
fragment. -/
def evalAttr (v : PyVal) (field : String) : EvalRes :=
  match v with
  | .mathModule =>
      if field == "sqrt" then some (.ok (.builtin .fsqrt))
      else if field == "sin" then some (.ok (.builtin .fsin))
      else if field == "cos" then some (.ok (.builtin .fcos))
      else if field == "tan" then some (.ok (.builtin .ftan))
      else if field == "log10" then some (.ok (.builtin .flog10))
      else if field == "log" then some (.ok (.builtin .flog))
      else if field == "pi" || field == "e" then none
      else some (.error ("module 'math' has no attribute '" ++ field ++ "'"))
  | _ => none

/-- Exact square root of a natural number, if any. -/
def natSqrtExact (n : Nat) : Option Nat :=
  (List.range (n + 1)).find? (fun r => r * r == n)

/-- A numeric value as an exact float, when it is one. -/
def asFloat : PyVal → Option PyFloat
  | .int n => some ⟨n, 1⟩
  | .float f => some f
  | _ => none

/-- Application of a reachable function to one evaluated argument.
`math.sqrt` is exact only on perfect squares (`sqrt(n/d) =
sqrt(n*d)/d`); a negative argument raises `ValueError('math domain
error')`; the transcendental functions and the unmodelled builtins are
outside the fragment. -/
def applyFn (b : MathFn) (v : PyVal) : EvalRes :=
  match b with
  | .fsqrt =>
      match asFloat v with
      | none => none
      | some f =>
          if f.num < 0 then some (.error "math domain error")
          else
            match natSqrtExact (f.num.toNat * f.den) with
            | some s => some (.ok (.float ⟨s, f.den⟩))
            | none => none
  | .fabs =>
      match v with
      | .int n => some (.ok (.int n.natAbs))
      | .float f => some (.ok (.float ⟨f.num.natAbs, f.den⟩))
      | _ => none
  | _ => none

/-- Binary arithmetic of the fragment, following Python semantics:
`int` arithmetic stays integral except `/` (true division, yielding a
float, raising `ZeroDivisionError` on 0) and negative-exponent `**`;
mixed or float arithmetic promotes to float and stays exact; string
concatenation is modelled; other combinations are outside the
fragment. -/
def evalBin (op : PyBinOp) (a b : PyVal) : EvalRes :=
  match op, a, b with
  | .add, .str s, .str t => some (.ok (.str (s ++ t)))
  | .add, .int m, .int n => some (.ok (.int (m + n)))
  | .sub, .int m, .int n => some (.ok (.int (m - n)))
  | .mul, .int m, .int n => some (.ok (.int (m * n)))
  | .div, .int m, .int n =>
      if n == 0 then some (.error "division by zero")
      else if n < 0 then some (.ok (.float ⟨-m, n.natAbs⟩))
      else some (.ok (.float ⟨m, n.natAbs⟩))
  | .pow, .int m, .int n =>
      if 0 ≤ n then some (.ok (.int (m ^ n.toNat)))
      else if m == 0 then some (.error "0.0 cannot be raised to a negative power")
      else
        let p := m ^ (-n).toNat
        some (.ok (.float ⟨if p < 0 then -1 else 1, p.natAbs⟩))
  | .add, x, y =>
      match asFloat x, asFloat y with
      | some f, some g => some (.ok (.float ⟨f.num * g.den + g.num * f.den, f.den * g.den⟩))
      | _, _ => none
  | .sub, x, y =>
      match asFloat x, asFloat y with
      | some f, some g => some (.ok (.float ⟨f.num * g.den - g.num * f.den, f.den * g.den⟩))
      | _, _ => none
  | .mul, x, y =>
      match asFloat x, asFloat y with
      | some f, some g => some (.ok (.float ⟨f.num * g.num, f.den * g.den⟩))
      | _, _ => none
  | .div, x, y =>
      match asFloat x, asFloat y with
      | some f, some g =>
          if g.num == 0 then some (.error "float division by zero")
          else if g.num < 0 then
            some (.ok (.float ⟨-(f.num * g.den), f.den * g.num.natAbs⟩))
          else some (.ok (.float ⟨f.num * g.den, f.den * g.num.natAbs⟩))
      | _, _ => none
  | .pow, _, _ => none

/-- Unary minus, following Python semantics on numbers. -/
def evalNeg (v : PyVal) : EvalRes :=
  match v with
  | .int n => some (.ok (.int (-n)))
  | .float f => some (.ok (.float ⟨-f.num, f.den⟩))
  | _ => none

/-- Evaluator for the fragment (left-to-right evaluation, first raised
exception propagates, as in Python). -/
def pyEval : PyExpr → EvalRes
  | .intLit n => some (.ok (.int n))
  | .strLit s => some (.ok (.str s))
  | .nameRef s => lookupName s
  | .attr e field =>
      match pyEval e with
      | none => none
      | some (.error m) => some (.error m)
      | some (.ok v) => evalAttr v field
  | .call f arg =>
      match pyEval f with
      | none => none
      | some (.error m) => some (.error m)
      | some (.ok fv) =>
          match pyEval arg with
          | none => none
          | some (.error m) => some (.error m)
          | some (.ok av) =>
              match fv with
              | .builtin b => applyFn b av
              | _ => none
  | .binop op a b =>
      match pyEval a with
      | none => none
      | some (.error m) => some (.error m)
      | some (.ok av) =>
          match pyEval b with
          | none => none
          | some (.error m) => some (.error m)
          | some (.ok bv) => evalBin op av bv
  | .neg e =>
      match pyEval e with
      | none => none
      | some (.error m) => some (.error m)
      | some (.ok v) => evalNeg v

/-- Round `a / d` (`d` positive) to the nearest integer, ties to even —
the rounding mode of Python's `round`. -/
def roundHalfEvenInt (a : Int) (d : Int) : Int :=
  let q := a.ediv d
  let r := a.emod d
  if 2 * r < d then q
  else if d < 2 * r then q + 1
  else if q.emod 2 == 0 then q else q + 1

/-- Python `round(x, 10)` on an exact float: the nearest multiple of
`10⁻¹⁰`, ties to even. -/
def pyRound10 (f : PyFloat) : PyFloat :=
  ⟨roundHalfEvenInt (f.num * 10 ^ 10) (f.den : Int), 10 ^ 10⟩

/-- Strip trailing zero digits (`"50"` → `"5"`, all zeros → `"0"`). -/
def stripZeros (s : String) : String :=
  let l := s.toList.reverse.dropWhile (fun c => c == '0')
  if l.isEmpty then "0" else String.mk l.reverse

/-- Zero-pad a natural number to `k` digits. -/
def natDigitsPad (k : Nat) (n : Nat) : String :=
  let s := toString n
  String.mk (List.replicate (k - s.length) '0') ++ s

/-- Decimal rendering of an exact float whose denominator divides
`10¹⁰` (the shape produced by `pyRound10`), matching Python's `repr` on
such values. -/
def pyFloatRepr (f : PyFloat) : String :=
  let a := f.num.natAbs
  let ip := a / f.den
  let frac10 := a % f.den * 10 ^ 10 / f.den
  (if f.num < 0 then "-" else "") ++ toString ip ++ "." ++
    stripZeros (natDigitsPad 10 frac10)

/-- The result-formatting tail of `calculator`: a float that
`is_integer` collapses to `int` display; any other float is shown
rounded to 10 fractional digits; ints and strings are interpolated as
by `str`; function and module values are outside the model (their
`repr` is not modelled). -/
def calcFormat (v : PyVal) : Option String :=
  match v with
  | .float f =>
      if f.isInteger then some ("Result: " ++ toString (f.num.ediv (f.den : Int)))
      else some ("Result: " ++ pyFloatRepr (pyRound10 f))
  | .int n => some ("Result: " ++ toString n)
  | .str s => some ("Result: " ++ s)
  | _ => none

/-- Embeds the `calculator` tool end to end: preprocess, `eval` in the
restricted namespace, format; every exception is caught and returned as
`"Error: " ++ str(e)`.  `none` means the input is outside the modelled
fragment of Python. -/
def calculator (expression : String) : Option String :=
  match pyParse (calcPreprocess expression) with
  | none => none
  | some e =>
      match pyEval e with
      | none => none
      | some (.error msg) => some ("Error: " ++ msg)
      | some (.ok v) => calcFormat v

/-- The spec's "restricted arithmetic/trigonometric/logarithmic grammar
against an explicit allow-list of symbols/functions", as a predicate on
parsed expressions: numeric literals, the arithmetic operators, unary
minus, the listed `math` functions and constants, and the listed
builtins applied to allowed arguments.  String literals in particular
are outside this grammar. -/
def allowedGrammar : PyExpr → Bool
  | .intLit _ => true
  | .strLit _ => false
  | .nameRef _ => false
  | .attr (.nameRef m) f =>
      m == "math" && (f == "pi" || f == "e")
  | .attr _ _ => false
  | .call (.attr (.nameRef m) f) arg =>
      m == "math" &&
        (f == "sqrt" || f == "sin" || f == "cos" || f == "tan" ||
          f == "log10" || f == "log") && allowedGrammar arg
  | .call (.nameRef f) arg =>
      (f == "abs" || f == "round" || f == "min" || f == "max") && allowedGrammar arg
  | .call _ _ => false
  | .binop _ a b => allowedGrammar a && allowedGrammar b
  | .neg e => allowedGrammar e

/-- A concrete turn whose response generation requested one tool: one
tool round (assistant tool-request message with empty visible content,
one tool result), then the final answer. -/
def toolTurn : Turn := ⟨"What is 2+2?", [⟨"", ["Result: 4"]⟩], "2 + 2 = 4"⟩

/-- A concrete two-entry document index used to instantiate the
retrieval theorems. -/
def demoEntries : List ScoredChunk :=
  [(⟨"alpha", "a.pdf", 2⟩, 3), (⟨"beta", "b.pdf", 5⟩, 7)]

/-! ## Theorems -/

/-! ### Helper lemmas -/

/-- `formatHistory` distributes over appended message lists. -/
theorem formatHistory_append (l1 l2 : List LCMessage) :
    formatHistory (l1 ++ l2) = formatHistory l1 ++ formatHistory l2 :=
  List.filterMap_append l1 l2 _

/-- Reading a stored message list never hits the empty-guard separately:
the result is always the formatted list. -/
theorem get_thread_history_ok (msgs : List LCMessage) :
    get_thread_history (Except.ok msgs) = formatHistory msgs := by
  cases msgs with
  | nil => rfl
  | cons m ms => simp [get_thread_history]

/-- A turn without tool rounds contributes exactly its user message and
its final answer to the formatted history. -/
theorem formatHistory_turn_no_tools (t : Turn) (h : t.rounds = []) :
    formatHistory (turnMessages t) = [⟨"user", t.userMsg⟩, ⟨"assistant", t.answer⟩] := by
  simp [turnMessages, h, formatHistory]

/-- Formatted history of a sequence of tool-free turns. -/
theorem formatHistory_threadMessages (turns : List Turn) (h : ∀ t ∈ turns, t.rounds = []) :
    formatHistory (threadMessages turns) =
      turns.flatMap fun t =>
        ([⟨"user", t.userMsg⟩, ⟨"assistant", t.answer⟩] : List HistoryEntry) := by
  induction turns with
  | nil => rfl
  | cons t ts ih =>
      have ht : t.rounds = [] := h t (List.mem_cons_self t ts)
      have hts : ∀ x ∈ ts, x.rounds = [] := fun x hx => h x (List.mem_cons_of_mem t hx)
      have : threadMessages (t :: ts) = turnMessages t ++ threadMessages ts := by
        simp [threadMessages]
      rw [this, formatHistory_append, formatHistory_turn_no_tools t ht, ih hts]
      simp

/-- Length of the two-entries-per-turn history. -/
theorem length_flatMap_two (turns : List Turn) :
    (turns.flatMap fun t =>
      ([⟨"user", t.userMsg⟩, ⟨"assistant", t.answer⟩] : List HistoryEntry)).length =
    2 * turns.length := by
  induction turns with
  | nil => rfl
  | cons t ts ih =>
      simp only [List.flatMap_cons, List.length_append, ih, List.length_cons, List.length_nil]
      omega

/-! ### C10 -/

/-- C10: for every user and thread, if reading the checkpointed state
fails with any exception, `get_thread_history` returns the empty list
instead of raising — the same value it returns for a thread with no
stored messages, so the two cases are indistinguishable to the
caller. -/
theorem c10_get_thread_history_swallows_read_errors :
    (∀ e : String, get_thread_history (Except.error e) = []) ∧
    get_thread_history (Except.ok []) = [] ∧
    ∀ e : String, get_thread_history (Except.error e) = get_thread_history (Except.ok []) :=
  ⟨fun _ => rfl, rfl, fun _ => rfl⟩

/-! ### C1 -/

/-- C1 (failing-input evaluation): when the existing-fact lookup
(`store.search`) raises, `remember_node` raises `NameError` from the
trailing `if items:` logging block — the turn does not proceed — even
though a failure of the extraction backend alone is degraded to "no new
memory" without raising, as the claim describes. -/
theorem c1_remember_node_raises_on_search_failure :
    (remember_node (Except.error "connection refused")
        (fun _ => Except.ok ⟨false, []⟩) []).2 =
      some "NameError: name 'items' is not defined" ∧
    remember_node (Except.ok ["Name is Alice"])
        (fun _ => Except.error "backend timeout") ["Name is Alice"] =
      (["Name is Alice"], none) :=
  ⟨rfl, rfl⟩

/-! ### C2 -/

/-- C2 (counterexample): after a turn for user 1 — completing normally
or by the error path — the ambient user-identity binding still holds
user 1 rather than having been cleared, so a subsequent turn on the
same context that does not set it observes user 1's identity. -/
theorem c2_ctx_not_cleared_cex :
    (chat_stream 1 none false ⟨[], none⟩).finalCtx = some 1 ∧
    (chat_stream 1 none false ⟨[], some "boom"⟩).finalCtx = some 1 ∧
    get_current_user_id (chat_stream 1 none false ⟨[], none⟩).finalCtx = some 1 :=
  ⟨rfl, rfl, rfl⟩

/-- C2 (amended): `chat_stream` sets the ambient binding at turn start
and no exit path clears it: on every exit path (normal completion or
error) the binding still holds the turn's user id, which a subsequent
reader on the same context observes. -/
theorem c2_ctx_retains_user_on_all_paths (user_id : Nat) (ctx : UserCtx) (flag : Bool)
    (run : GraphRun) :
    (chat_stream user_id ctx flag run).finalCtx = some user_id ∧
    get_current_user_id (chat_stream user_id ctx flag run).finalCtx = some user_id := by
  obtain ⟨events, fault⟩ := run
  cases fault <;> exact ⟨rfl, rfl⟩

/-! ### C6 -/

/-- C6 (failing-input evaluation): a memory-step failure is not
isolated: when `store.search` raises, `remember_node` raises `NameError`
(first conjunct), the graph stream faults, and the consumer receives an
error chunk and the turn aborts (second/third conjuncts) — contradicting
the claim that memory-extraction failures never produce an error chunk
for an otherwise-successful turn.  For genuine response-generation
faults the behaviour is as claimed: exactly one error chunk, emitted
last, with no content after it (remaining conjuncts). -/
theorem c6_memory_failure_produces_error_chunk :
    (remember_node (Except.error "db timeout") (fun _ => Except.ok ⟨false, []⟩) ["fact"]).2 =
      some "NameError: name 'items' is not defined" ∧
    (chat_stream 7 none false
        ⟨[], some "NameError: name 'items' is not defined"⟩).chunks =
      [memoryRetrievingChunk, Chunk.error "NameError: name 'items' is not defined"] ∧
    ((chat_stream 7 none false
        ⟨[], some "NameError: name 'items' is not defined"⟩).chunks.countP Chunk.isError) = 1 ∧
    (chat_stream 9 none false
        ⟨[⟨.chat_node, none, "Hel"⟩], some "rate limit"⟩).chunks =
      [memoryRetrievingChunk, generationStartedChunk, Chunk.content "Hel",
        Chunk.error "rate limit"] ∧
    ((chat_stream 9 none false
        ⟨[⟨.chat_node, none, "Hel"⟩], some "rate limit"⟩).chunks.countP Chunk.isError) = 1 :=
  ⟨rfl, by decide, by decide, by decide, by decide⟩

/-! ### C9 -/

/-- C9: ingestion is not idempotent: merging the same chunk list into
the index it created doubles the index — same chunks appended again,
twice the length, twice every chunk's multiplicity — and in particular
the re-ingested index differs from the single-ingestion one. -/
theorem c9_process_pdf_not_idempotent (chunks : List DocChunk) (h : chunks ≠ []) :
    process_pdf (some (process_pdf none chunks)) chunks = chunks ++ chunks ∧
    (process_pdf (some (process_pdf none chunks)) chunks).length = 2 * chunks.length ∧
    (∀ c : DocChunk,
      (process_pdf (some (process_pdf none chunks)) chunks).count c = 2 * chunks.count c) ∧
    process_pdf (some (process_pdf none chunks)) chunks ≠ process_pdf none chunks := by
  have e1 : process_pdf (some (process_pdf none chunks)) chunks = chunks ++ chunks := rfl
  have e2 : process_pdf none chunks = chunks := rfl
  refine ⟨rfl, ?_, ?_, ?_⟩
  · rw [e1, List.length_append]; omega
  · intro c; rw [e1, List.count_append]; omega
  · intro heq
    rw [e1, e2] at heq
    have hl := congrArg List.length heq
    rw [List.length_append] at hl
    have : chunks.length = 0 := by omega
    exact h (List.eq_nil_of_length_eq_zero this)

/-- C9 (witness): re-ingesting a concrete one-chunk document duplicates
its chunk. -/
theorem c9_witness :
    process_pdf (some (process_pdf none [⟨"c", "s.pdf", 1⟩])) [⟨"c", "s.pdf", 1⟩] =
      [⟨"c", "s.pdf", 1⟩] ++ [⟨"c", "s.pdf", 1⟩] :=
  (c9_process_pdf_not_idempotent [⟨"c", "s.pdf", 1⟩] (by decide)).1

/-! ### C3 -/

/-- C3 (counterexample): after one successful turn that requested a
tool, `get_thread_history` returns three entries — the intermediate
assistant tool-request message is kept as an `assistant` entry — not
`2·N = 2`, and the roles do not alternate. -/
theorem c3_tool_turn_cex :
    get_thread_history (Except.ok (threadMessages [toolTurn])) =
      [⟨"user", "What is 2+2?"⟩, ⟨"assistant", ""⟩, ⟨"assistant", "2 + 2 = 4"⟩] ∧
    (get_thread_history (Except.ok (threadMessages [toolTurn]))).length ≠
      2 * [toolTurn].length :=
  ⟨by decide, by decide⟩

/-- C3 (amended): after `N` successful turns none of which requested
tools, `get_thread_history` returns exactly `2·N` messages in strict
alternating user/assistant order matching the turn inputs and outputs;
a turn that requested tools additionally contributes one `assistant`
entry per intermediate tool-request message (its tool messages are
dropped), breaking the `2·N` alternation. -/
theorem c3_history_two_per_turn_without_tools (turns : List Turn)
    (h : ∀ t ∈ turns, t.rounds = []) :
    get_thread_history (Except.ok (threadMessages turns)) =
      (turns.flatMap fun t =>
        ([⟨"user", t.userMsg⟩, ⟨"assistant", t.answer⟩] : List HistoryEntry)) ∧
    (get_thread_history (Except.ok (threadMessages turns))).length = 2 * turns.length := by
  have he : get_thread_history (Except.ok (threadMessages turns)) =
      turns.flatMap fun t =>
        ([⟨"user", t.userMsg⟩, ⟨"assistant", t.answer⟩] : List HistoryEntry) := by
    rw [get_thread_history_ok, formatHistory_threadMessages turns h]
  exact ⟨he, by rw [he, length_flatMap_two]⟩

/-- C3 (witness): two concrete tool-free turns yield four alternating
entries. -/
theorem c3_witness :
    get_thread_history
        (Except.ok (threadMessages [⟨"hi", [], "hello!"⟩, ⟨"bye", [], "see you!"⟩])) =
      [⟨"user", "hi"⟩, ⟨"assistant", "hello!"⟩, ⟨"user", "bye"⟩, ⟨"assistant", "see you!"⟩] ∧
    (get_thread_history
        (Except.ok (threadMessages [⟨"hi", [], "hello!"⟩, ⟨"bye", [], "see you!"⟩]))).length =
      2 * 2 := by
  have h := c3_history_two_per_turn_without_tools
    [⟨"hi", [], "hello!"⟩, ⟨"bye", [], "see you!"⟩] (by decide)
  exact ⟨h.1.trans (by decide), h.2.trans (by decide)⟩

/-! ### C4 -/

/-- With the generation flag already set, a step emits no
generation-started chunk and leaves the flag set. -/
theorem stepChunks_true (e : GEvent) :
    (stepChunks true e).1 = true ∧ ∀ c ∈ (stepChunks true e).2, c.isGenStart = false := by
  obtain ⟨node, tn, ct⟩ := e
  cases node with
  | remember => simp [stepChunks]
  | chat_node =>
      by_cases h : ct = "" <;> simp [stepChunks, h, Chunk.isGenStart]
  | tools =>
      cases tn <;> by_cases h : ct = "" <;>
        simp_all [stepChunks, Chunk.isGenStart]

/-- A `tools` event emits neither generation-started nor content chunks
and leaves the flag unchanged. -/
theorem stepChunks_tools (flag : Bool) (tn : Option String) (ct : String) :
    (stepChunks flag ⟨.tools, tn, ct⟩).1 = flag ∧
    ∀ c ∈ (stepChunks flag ⟨.tools, tn, ct⟩).2,
      c.isGenStart = false ∧ c.isContent = false := by
  cases tn <;> by_cases h : ct = "" <;>
    simp_all [stepChunks, Chunk.isGenStart, Chunk.isContent]

/-- With the flag set on entry, the whole loop emits no
generation-started chunk. -/
theorem runChunks_true (es : List GEvent) :
    (runChunks true es).1 = true ∧ ∀ c ∈ (runChunks true es).2, c.isGenStart = false := by
  induction es with
  | nil => simp [runChunks]
  | cons e es ih =>
      have h := stepChunks_true e
      simp only [runChunks]
      rw [h.1]
      refine ⟨ih.1, fun c hc => ?_⟩
      rcases List.mem_append.mp hc with h1 | h2
      · exact h.2 c h1
      · exact ih.2 c h2

/-- The loop's output decomposes into a content-free prefix followed by
a generation-started-free suffix, and contains at most one
generation-started chunk. -/
theorem runChunks_decomp (flag : Bool) (es : List GEvent) :
    (runChunks flag es).2.countP Chunk.isGenStart ≤ 1 ∧
    ∃ pre post, (runChunks flag es).2 = pre ++ post ∧
      (∀ c ∈ pre, c.isContent = false) ∧ ∀ c ∈ post, c.isGenStart = false := by
  induction es generalizing flag with
  | nil =>
      exact ⟨by simp [runChunks], [], [], by simp [runChunks], by simp, by simp⟩
  | cons e es ih =>
      cases flag with
      | true =>
          have h := runChunks_true (e :: es)
          have hz : (runChunks true (e :: es)).2.countP Chunk.isGenStart = 0 :=
            List.countP_eq_zero.mpr (fun a ha => by simp [h.2 a ha])
          exact ⟨by omega, [], (runChunks true (e :: es)).2, by simp, by simp, h.2⟩
      | false =>
          obtain ⟨node, tn, ct⟩ := e
          cases node with
          | remember =>
              have he : runChunks false (⟨.remember, tn, ct⟩ :: es) = runChunks false es := by
                simp [runChunks, stepChunks]
              rw [he]; exact ih false
          | chat_node =>
              by_cases hct : ct = ""
              · have he : runChunks false (⟨.chat_node, tn, ct⟩ :: es) = runChunks false es := by
                  simp [runChunks, stepChunks, hct]
                rw [he]; exact ih false
              · have he : (runChunks false (⟨.chat_node, tn, ct⟩ :: es)).2 =
                    generationStartedChunk :: Chunk.content ct :: (runChunks true es).2 := by
                  simp [runChunks, stepChunks, hct]
                have h := runChunks_true es
                have hz : (runChunks true es).2.countP Chunk.isGenStart = 0 :=
                  List.countP_eq_zero.mpr (fun a ha => by simp [h.2 a ha])
                constructor
                · rw [he]
                  simp only [List.countP_cons]
                  simp [hz, Chunk.isGenStart, generationStartedChunk]
                · refine ⟨[generationStartedChunk],
                    Chunk.content ct :: (runChunks true es).2, by simp [he], ?_, ?_⟩
                  · intro c hc
                    simp only [List.mem_singleton] at hc
                    simp [hc, generationStartedChunk, Chunk.isContent]
                  · intro c hc
                    rcases List.mem_cons.mp hc with h1 | h2
                    · simp [h1, Chunk.isGenStart]
                    · exact h.2 c h2
          | tools =>
              have hs := stepChunks_tools false tn ct
              have he : (runChunks false (⟨.tools, tn, ct⟩ :: es)).2 =
                  (stepChunks false ⟨.tools, tn, ct⟩).2 ++ (runChunks false es).2 := by
                simp only [runChunks]
                rw [hs.1]
              obtain ⟨hcount, pre, post, hsplit, hpre, hpost⟩ := ih false
              have hz : (stepChunks false ⟨.tools, tn, ct⟩).2.countP Chunk.isGenStart = 0 :=
                List.countP_eq_zero.mpr (fun a ha => by simp [(hs.2 a ha).1])
              constructor
              · rw [he, List.countP_append, hz]; omega
              · refine ⟨(stepChunks false ⟨.tools, tn, ct⟩).2 ++ pre, post, ?_, ?_, hpost⟩
                · rw [he, hsplit, List.append_assoc]
                · intro c hc
                  rcases List.mem_append.mp hc with h1 | h2
                  · exact (hs.2 c h1).2
                  · exact hpre c h2

/-- C4: in every chunk sequence produced by one `chat_stream` turn —
whatever the initial state of the generation flag, in particular the
state left by an earlier turn that ended in an error — the
memory-retrieving status chunk is the very first chunk (hence precedes
any content chunk), a generation-started status chunk occurs at most
once, and the sequence splits into a content-free prefix followed by a
suffix without generation-started chunks, so any generation-started
chunk is emitted strictly before the first content chunk. -/
theorem c4_stream_chunk_ordering (user_id : Nat) (ctx : UserCtx) (flag : Bool)
    (run : GraphRun) :
    (chat_stream user_id ctx flag run).chunks.head? = some memoryRetrievingChunk ∧
    memoryRetrievingChunk.isContent = false ∧
    (chat_stream user_id ctx flag run).chunks.countP Chunk.isGenStart ≤ 1 ∧
    ∃ pre post, (chat_stream user_id ctx flag run).chunks = pre ++ post ∧
      (∀ c ∈ pre, c.isContent = false) ∧ ∀ c ∈ post, c.isGenStart = false := by
  obtain ⟨events, fault⟩ := run
  obtain ⟨hcount, pre, post, hsplit, hpre, hpost⟩ := runChunks_decomp flag events
  cases fault with
  | none =>
      refine ⟨rfl, rfl, ?_, memoryRetrievingChunk :: pre, post, ?_, ?_, hpost⟩
      · show (memoryRetrievingChunk :: (runChunks flag events).2).countP Chunk.isGenStart ≤ 1
        have h0 : (if memoryRetrievingChunk.isGenStart = true then 1 else 0) = 0 := by
          simp [memoryRetrievingChunk, Chunk.isGenStart]
        rw [List.countP_cons, h0]
        omega
      · show memoryRetrievingChunk :: (runChunks flag events).2 = _
        rw [hsplit]; rfl
      · intro c hc
        rcases List.mem_cons.mp hc with h1 | h2
        · simp [h1, memoryRetrievingChunk, Chunk.isContent]
        · exact hpre c h2
  | some err =>
      refine ⟨rfl, rfl, ?_, memoryRetrievingChunk :: pre,
        post ++ [Chunk.error err], ?_, ?_, ?_⟩
      · show (memoryRetrievingChunk ::
            ((runChunks flag events).2 ++ [Chunk.error err])).countP Chunk.isGenStart ≤ 1
        have h0 : (if memoryRetrievingChunk.isGenStart = true then 1 else 0) = 0 := by
          simp [memoryRetrievingChunk, Chunk.isGenStart]
        have h1 : ([Chunk.error err] : List Chunk).countP Chunk.isGenStart = 0 := by
          simp [Chunk.isGenStart]
        rw [List.countP_cons, h0, List.countP_append, h1]
        omega
      · show memoryRetrievingChunk :: (runChunks flag events).2 ++ [Chunk.error err] = _
        rw [hsplit]
        simp [List.append_assoc]
      · intro c hc
        rcases List.mem_cons.mp hc with h1 | h2
        · simp [h1, memoryRetrievingChunk, Chunk.isContent]
        · exact hpre c h2
      · intro c hc
        rcases List.mem_append.mp hc with h1 | h2
        · exact hpost c h1
        · simp only [List.mem_singleton] at h2
          simp [h2, Chunk.isGenStart]

/-! ### C5 -/

/-- Displayed chunk content never exceeds 400 characters. -/
theorem pyTruncate_length_le (s : String) : (pyTruncate s).length ≤ 400 := by
  by_cases h : s.length > 400
  · have he : pyTruncate s = String.mk (s.toList.take 397) ++ "..." := by
      simp [pyTruncate, h]
    rw [he, String.length_append]
    have h1 : (String.mk (s.toList.take 397)).length = (s.toList.take 397).length := rfl
    have h2 : (s.toList.take 397).length ≤ 397 := by
      rw [List.length_take]
      omega
    have h3 : ("..." : String).length = 3 := rfl
    omega
  · have he : pyTruncate s = s := by simp [pyTruncate, h]
    rw [he]
    omega

/-- C5: document retrieval over the caller's index.  An absent index
yields the guidance string, which literally instructs uploading a PDF —
a normal text result.  A present index yields at most 4 chunks, which
are a prefix of a descending-by-score sorted rearrangement of the whole
index (so they are the top-scoring ones, in descending order); the
response shows section `i+1` formatted from the `i`-th result in that
order (filename, page, stripped content truncated to at most 400
characters), joined after a count header. -/
theorem c5_search_my_documents_spec (entries : List ScoredChunk) :
    search_my_documents none = noDocumentsMessage ∧
    (∃ pre post, noDocumentsMessage = pre ++ ("Upload a PDF document" ++ post)) ∧
    (query_documents (some entries) 4).length ≤ 4 ∧
    (∃ rest, (query_documents (some entries) 4 ++ rest).Perm entries ∧
      List.Sorted scoreGE (query_documents (some entries) 4 ++ rest)) ∧
    (∀ i r, (query_documents (some entries) 4).get? i = some r →
      (formatResults (query_documents (some entries) 4)).get? (i + 1) =
        some (formatSection (i + 1) r)) ∧
    (∀ r ∈ query_documents (some entries) 4,
      (pyTruncate (pyStrip r.1.content)).length ≤ 400) ∧
    ((query_documents (some entries) 4).isEmpty = false →
      search_my_documents (some entries) =
        String.intercalate "\n" (formatResults (query_documents (some entries) 4))) := by
  have hq : query_documents (some entries) 4 =
      (List.insertionSort scoreGE entries).take 4 := rfl
  refine ⟨rfl, ?_, ?_, ?_, ?_, ?_, ?_⟩
  · exact ⟨"I don't see any uploaded documents in your account yet.\n\nTo use this feature:\n1. ",
      " using the upload button\n2. Wait for processing to complete\n3. Ask me questions about your document",
      rfl⟩
  · rw [hq, List.length_take]
    omega
  · refine ⟨(List.insertionSort scoreGE entries).drop 4, ?_, ?_⟩
    · rw [hq, List.take_append_drop]
      exact List.perm_insertionSort scoreGE entries
    · rw [hq, List.take_append_drop]
      exact List.sorted_insertionSort scoreGE entries
  · intro i r hr
    have : (formatResults (query_documents (some entries) 4)).get? (i + 1) =
        ((query_documents (some entries) 4).enum.map
          (fun p => formatSection (p.1 + 1) p.2)).get? i := rfl
    rw [this, List.get?_map, List.get?_enum, hr]
    rfl
  · intro r _
    exact pyTruncate_length_le (pyStrip r.1.content)
  · intro hne
    simp [search_my_documents, hne]

/-- C5 (witness): on a concrete two-entry index the second displayed
section is the top-scoring hit formatted as specified, and the response
is the joined section list. -/
theorem c5_witness :
    (formatResults (query_documents (some demoEntries) 4)).get? 1 =
      some (formatSection 1 (⟨"beta", "b.pdf", 5⟩, 7)) ∧
    search_my_documents (some demoEntries) =
      String.intercalate "\n" (formatResults (query_documents (some demoEntries) 4)) := by
  have h := c5_search_my_documents_spec demoEntries
  exact ⟨h.2.2.2.2.1 0 (⟨"beta", "b.pdf", 5⟩, 7) (by decide), h.2.2.2.2.2.2 (by decide)⟩

/-! ### C7 -/

/-- Scaled form of the half-unit rounding bound. -/
theorem rounding_abs_bound (R a d : Int) (hd : 0 < d) (h : 2 * |R * d - a| ≤ d) :
    |((R : ℚ)) - (a : ℚ) / (d : ℚ)| ≤ 1 / 2 := by
  have hdq : (0 : ℚ) < (d : ℚ) := by exact_mod_cast hd
  have hdne : (d : ℚ) ≠ 0 := ne_of_gt hdq
  have key : ((R : ℚ)) - (a : ℚ) / (d : ℚ) = ((R * d - a : Int) : ℚ) / (d : ℚ) := by
    push_cast
    field_simp
  rw [key, abs_div, abs_of_pos hdq, div_le_iff hdq, ← Int.cast_abs]
  have h2 : 2 * ((|R * d - a| : Int) : ℚ) ≤ ((d : Int) : ℚ) := by exact_mod_cast h
  linarith

/-- Ties-to-even rounding lands within half a unit of the exact
quotient. -/
theorem roundHalfEvenInt_close (a d : Int) (hd : 0 < d) :
    |((roundHalfEvenInt a d : Int) : ℚ) - (a : ℚ) / (d : ℚ)| ≤ 1 / 2 := by
  have hr0 : 0 ≤ a.emod d := Int.emod_nonneg a (ne_of_gt hd)
  have hrd : a.emod d < d := Int.emod_lt_of_pos a hd
  have hade : a.emod d + d * a.ediv d = a := Int.emod_add_ediv a d
  apply rounding_abs_bound _ _ _ hd
  simp only [roundHalfEvenInt]
  split_ifs with h1 h2 h3
  · have he : a.ediv d * d - a = -(a.emod d) := by linear_combination hade
    rw [he, abs_neg, abs_of_nonneg hr0]
    omega
  · have he : (a.ediv d + 1) * d - a = d - a.emod d := by linear_combination hade
    rw [he, abs_of_nonneg (by omega)]
    omega
  · have he : a.ediv d * d - a = -(a.emod d) := by linear_combination hade
    rw [he, abs_neg, abs_of_nonneg hr0]
    omega
  · have he : (a.ediv d + 1) * d - a = d - a.emod d := by linear_combination hade
    rw [he, abs_of_nonneg (by omega)]
    omega

/-- `pyRound10` stays within half of `10⁻¹⁰` of the exact value and
produces a 10-decimal-digit fraction. -/
theorem pyRound10_close (f : PyFloat) (hd : f.den ≠ 0) :
    |(pyRound10 f).toRat - f.toRat| ≤ 1 / (2 * 10 ^ 10) ∧
    (pyRound10 f).den = 10 ^ 10 := by
  have hdpos : (0 : Int) < (f.den : Int) := by exact_mod_cast Nat.pos_of_ne_zero hd
  have h := roundHalfEvenInt_close (f.num * 10 ^ 10) (f.den : Int) hdpos
  refine ⟨?_, rfl⟩
  have hE : (0 : ℚ) < (10 : ℚ) ^ 10 := by positivity
  have hdq : ((f.den : Int) : ℚ) ≠ 0 := by
    exact_mod_cast ne_of_gt hdpos
  have key : (pyRound10 f).toRat - f.toRat =
      (((roundHalfEvenInt (f.num * 10 ^ 10) (f.den : Int) : Int) : ℚ) -
        ((f.num * 10 ^ 10 : Int) : ℚ) / ((f.den : Int) : ℚ)) / (10 : ℚ) ^ 10 := by
    simp only [pyRound10, PyFloat.toRat]
    push_cast
    field_simp
    ring
  rw [key, abs_div, abs_of_pos hE]
  calc |((roundHalfEvenInt (f.num * 10 ^ 10) (f.den : Int) : Int) : ℚ) -
        ((f.num * 10 ^ 10 : Int) : ℚ) / ((f.den : Int) : ℚ)| / (10 : ℚ) ^ 10
      ≤ (1 / 2) / (10 : ℚ) ^ 10 := (div_le_div_right hE).mpr h
    _ = 1 / (2 * 10 ^ 10) := by ring

/-- The integer displayed for an `is_integer` float equals the float's
exact value. -/
theorem ediv_cast_of_isInteger (f : PyFloat) (hd : f.den ≠ 0) (hi : f.isInteger = true) :
    ((f.num.ediv (f.den : Int) : Int) : ℚ) = f.toRat := by
  have hmod : f.num.emod (f.den : Int) = 0 := by
    simpa [PyFloat.isInteger] using hi
  obtain ⟨k, hk⟩ := Int.dvd_of_emod_eq_zero hmod
  have hdne : (f.den : Int) ≠ 0 := by exact_mod_cast hd
  have hq : ((f.den : Nat) : ℚ) ≠ 0 := Nat.cast_ne_zero.mpr hd
  have hcan : f.num.ediv (f.den : Int) = k := by
    rw [hk]; exact Int.mul_ediv_cancel_left k hdne
  rw [hcan]
  show (k : ℚ) = (f.num : ℚ) / ((f.den : Nat) : ℚ)
  rw [hk]
  push_cast
  field_simp

/-- C7: the calculator returns `"Result: 12"` for `"sqrt(16) + 2**3"`
and the text error `"Error: division by zero"` (not an exception) for
`"1/0"`.  In general, a float result that `is_integer` is displayed as
the exact integer it equals, and any other float result is displayed
rounded to 10 fractional digits — a 10-digit decimal within half of
`10⁻¹⁰` of the exact value. -/
theorem c7_calculator_spec :
    calculator "sqrt(16) + 2**3" = some "Result: 12" ∧
    calculator "1/0" = some "Error: division by zero" ∧
    (∀ f : PyFloat, f.den ≠ 0 → f.isInteger = true →
      calcFormat (.float f) = some ("Result: " ++ toString (f.num.ediv (f.den : Int))) ∧
      ((f.num.ediv (f.den : Int) : Int) : ℚ) = f.toRat) ∧
    (∀ f : PyFloat, f.den ≠ 0 → f.isInteger = false →
      calcFormat (.float f) = some ("Result: " ++ pyFloatRepr (pyRound10 f)) ∧
      (pyRound10 f).den = 10 ^ 10 ∧
      |(pyRound10 f).toRat - f.toRat| ≤ 1 / (2 * 10 ^ 10)) := by
  refine ⟨by decide, by decide, ?_, ?_⟩
  · intro f hd hi
    exact ⟨by simp [calcFormat, hi], ediv_cast_of_isInteger f hd hi⟩
  · intro f hd hi
    exact ⟨by simp [calcFormat, hi], (pyRound10_close f hd).2, (pyRound10_close f hd).1⟩

/-- C7 (witness): the float `3.0` (as `30/10`) is displayed as the
integer 3 it equals, and the float `2.5` (as `25/10`) is displayed via
the 10-digit rounding, which is within half of `10⁻¹⁰` of `2.5`. -/
theorem c7_witness :
    calcFormat (.float ⟨30, 10⟩) =
      some ("Result: " ++ toString (((30 : Int)).ediv ((10 : Nat) : Int))) ∧
    ((((30 : Int).ediv ((10 : Nat) : Int) : Int)) : ℚ) = (⟨30, 10⟩ : PyFloat).toRat ∧
    calcFormat (.float ⟨25, 10⟩) = some ("Result: " ++ pyFloatRepr (pyRound10 ⟨25, 10⟩)) ∧
    |(pyRound10 ⟨25, 10⟩).toRat - (⟨25, 10⟩ : PyFloat).toRat| ≤ 1 / (2 * 10 ^ 10) := by
  have h1 := c7_calculator_spec.2.2.1 ⟨30, 10⟩ (by decide) (by decide)
  have h2 := c7_calculator_spec.2.2.2 ⟨25, 10⟩ (by decide) (by decide)
  exact ⟨h1.1, h1.2, h2.1, h2.2.2⟩

/-! ### C8 -/

/-- C8 (counterexample): the string literal `'abc'` is outside the
spec's restricted arithmetic allow-list grammar, yet the calculator
evaluates it and returns the normal result `"Result: abc"`, not a text
error — refuting "any input outside that allow-list returns a text
error string". -/
theorem c8_allowlist_cex :
    pyParse (calcPreprocess "'abc'") = some (PyExpr.strLit "abc") ∧
    allowedGrammar (PyExpr.strLit "abc") = false ∧
    calculator "'abc'" = some "Result: abc" ∧
    ∀ t, "Result: abc" ≠ "Error: " ++ t := by
  refine ⟨by decide, rfl, by decide, ?_⟩
  intro t ht
  have hd := congrArg String.data ht
  rw [String.data_append] at hd
  have h1 : ("Result: abc").data =
      ['R', 'e', 's', 'u', 'l', 't', ':', ' ', 'a', 'b', 'c'] := rfl
  have h2 : ("Error: ").data = ['E', 'r', 'r', 'o', 'r', ':', ' '] := rfl
  rw [h1, h2] at hd
  injection hd with hh _
  exact absurd hh (by decide)

/-- Every successful formatting produces a `"Result: ..."` string. -/
theorem calcFormat_shape (v : PyVal) (r : String) (h : calcFormat v = some r) :
    ∃ t, r = "Result: " ++ t := by
  cases v with
  | int n => exact ⟨toString n, (Option.some.inj h).symm⟩
  | str s => exact ⟨s, (Option.some.inj h).symm⟩
  | float f =>
      by_cases hi : f.isInteger
      · rw [show calcFormat (.float f) =
            some ("Result: " ++ toString (f.num.ediv (f.den : Int))) from by
          simp [calcFormat, hi]] at h
        exact ⟨_, (Option.some.inj h).symm⟩
      · rw [show calcFormat (.float f) =
            some ("Result: " ++ pyFloatRepr (pyRound10 f)) from by
          simp [calcFormat, hi]] at h
        exact ⟨_, (Option.some.inj h).symm⟩
  | builtin b => simp [calcFormat] at h
  | mathModule => simp [calcFormat] at h

/-- C8 (amended): the calculator never propagates an exception — every
evaluation the model settles yields either a normal `"Result: ..."`
string or a caught `"Error: ..."` string — but it does not restrict
evaluation to the arithmetic allow-list grammar: Python expressions
outside it, such as the string literal `'abc'`, evaluate successfully
to a `"Result: ..."` value instead of failing. -/
theorem c8_calculator_result_shape :
    (∀ s r, calculator s = some r →
      (∃ t, r = "Result: " ++ t) ∨ ∃ t, r = "Error: " ++ t) ∧
    calculator "'abc'" = some "Result: abc" := by
  constructor
  · intro s r h
    unfold calculator at h
    split at h
    · exact Option.noConfusion h
    · split at h
      · exact Option.noConfusion h
      · exact .inr ⟨_, (Option.some.inj h).symm⟩
      · exact .inl (calcFormat_shape _ _ h)
  · decide

/-- C8 (witness): instantiating the result-shape property at the
concrete input `'abc'`. -/
theorem c8_witness :
    (∃ t, "Result: abc" = "Result: " ++ t) ∨ ∃ t, "Result: abc" = "Error: " ++ t :=
  c8_calculator_result_shape.1 "'abc'" "Result: abc" c8_calculator_result_shape.2

end EAsst
